import Mathlib

/-!
Verification of the rolling-up analytics dashboard (app.py, core/plot_utils.py).

Numeric cells are modelled exactly: finite values as rationals, and where
pandas float semantics matter (division by zero, missing cells) an explicit
pandas-float type `PFloat` with `nan` and signed infinities is used.
Calendar months are modelled as integers in chronological order, matching the
lexicographic order of the canonical YYYY-MM strings used by the app.
-/

/-- A pandas float cell: a finite rational, NaN (the missing-value sentinel),
or a signed infinity produced by float division by zero. -/
inductive PFloat where
  | num (q : ℚ)
  | nan
  | inf (pos : Bool)
deriving DecidableEq

/-- `UNIT_MAP.get(unit, 1)` from app.py line 1980:
円 maps to 1, 千円 to 1000, 百万円 to 1000000, anything else defaults to 1. -/
def UNIT_MAP (unit : String) : ℚ :=
  if unit = "円" then 1
  else if unit = "千円" then 1000
  else if unit = "百万円" then 1000000
  else 1

/-- Python `round` on a float: round half to even (banker's rounding). -/
def roundHalfEven (q : ℚ) : ℤ :=
  let f := Int.floor q
  let r := q - (f : ℚ)
  if r < 1/2 then f
  else if 1/2 < r then f + 1
  else if f % 2 = 0 then f else f + 1

/-- Group a reversed digit list into blocks of three separated by commas. -/
def groupRev : List Char → List Char
  | a :: b :: c :: d :: rest => a :: b :: c :: ',' :: groupRev (d :: rest)
  | l => l

/-- Decimal digits of a natural number with thousands separators. -/
def commaDigits (n : ℕ) : String :=
  String.mk ((groupRev (toString n).toList.reverse).reverse)

/-- `format_int` (app.py line 2720): comma-grouped integer rendering of
`int(round(val))`.  The `TypeError`/`ValueError` fallback to "0" is
unreachable for numeric inputs, which is all this model passes in. -/
def format_int (q : ℚ) : String :=
  let n := roundHalfEven q
  (if n < 0 then "-" else "") ++ commaDigits n.natAbs

def isSpaceChar (c : Char) : Bool := c = ' '

/-- Python `str.strip()` restricted to the space character, the only
whitespace this call site can produce. -/
def pyStrip (s : String) : String :=
  String.mk (((s.toList.dropWhile isSpaceChar).reverse.dropWhile isSpaceChar).reverse)

/-- `format_amount` (app.py lines 2712-2717).  `None` and float NaN render the
placeholder; a finite value is scaled by the currency unit and formatted.
An infinite input would make `int(round(val))` raise `OverflowError`, which
`format_int` does not catch, hence `none` (an exception escaping). -/
def format_amount (val : Option PFloat) (unit : String) : Option String :=
  match val with
  | none => some "—"
  | some PFloat.nan => some "—"
  | some (PFloat.inf _) => none
  | some (PFloat.num q) => some (pyStrip (format_int (q / UNIT_MAP unit) ++ " " ++ unit))

/-- Float division guarded as in Python: dividing by zero is an error branch,
modelled as `none`. -/
def safeDiv (a b : ℚ) : Option ℚ :=
  if b = 0 then none else some (a / b)

/-- `_y_to_px` (core/plot_utils.py lines 113-116): the guard replaces `y1`
with `y0 + 1.0` when the two bounds coincide, then converts a data value to
pixel offset; the division is modelled through `safeDiv` so that the error
branch is visible in the type. -/
def _y_to_px (y y0 y1 plot_h : ℚ) : Option ℚ :=
  let y1' := if y1 = y0 then y0 + 1 else y1
  (safeDiv (y - y0) (y1' - y0)).map (fun t => (1 - t) * plot_h)

/-- A Streamlit slider with the given bounds: whatever the stored widget
state requests, the returned value is clamped into `[lo, hi]`. -/
def st_slider (lo hi req : ℚ) : ℚ := max lo (min hi req)

/-- The two entries of the anomaly-page score-method radio widget
(app.py line 8190). -/
inductive ScoreMethod where
  | zscore
  | madscore
deriving DecidableEq

/-- The anomaly-page control block (app.py lines 8192-8213): z-score mode
pairs `robust=False` with the [2.0, 5.0] threshold slider, MAD mode pairs
`robust=True` with the [2.5, 6.0] threshold slider.  The pair returned is
exactly what reaches `detect_linear_anomalies` at line 8237. -/
def anomaly_controls (method : ScoreMethod) (reqZ reqMad : ℚ) : Bool × ℚ :=
  match method with
  | ScoreMethod.zscore => (false, st_slider 2 5 reqZ)
  | ScoreMethod.madscore => (true, st_slider (5/2) 6 reqMad)

/-- The missing-month policies of the pipeline. -/
inductive Policy where
  | zero_fill
  | mark_missing
deriving DecidableEq

/-- The slice of `st.session_state.settings` the pipeline reads. -/
structure Settings where
  window : ℤ
  last_n : ℤ
  missing_policy : Policy
deriving DecidableEq

/-- The dashboard period selectbox options (app.py line 7246). -/
def period_options : List ℤ := [12, 24, 36]

/-- A Streamlit number input clamps its value into `[lo, hi]`. -/
def st_number_input (lo hi req : ℤ) : ℤ := max lo (min hi req)

/-- The settings-page 年計ウィンドウ number input (app.py lines 8825-8831):
min 3, max 24. -/
def settings_page_window (req : ℤ) : ℤ := st_number_input 3 24 req

/-- The values `settings["window"]` can be set to by the UI: either the
settings-page number input (app.py line 8825) or the dashboard period
selectbox (app.py line 7307, one of `period_options`). -/
def ui_sets_window (w : ℤ) : Prop :=
  (∃ req, w = settings_page_window req) ∨ w ∈ period_options

/-- The `window` argument `process_long_dataframe` hands to
`compute_year_rolling` (app.py line 2684): `int(settings.get("window", 12) or 12)`,
so a stored 0 falls back to 12. -/
def process_window_arg (s : Settings) : ℤ :=
  if s.window = 0 then 12 else s.window

/-- The `window` argument of the settings-page recompute call
(app.py line 8864): `s["window"]` passed through unchanged. -/
def recompute_window_arg (s : Settings) : ℤ := s.window

/-- C8: `format_amount` renders `None` and float NaN as the placeholder and
returns a formatted string for every finite numeric value, raising no
exception. -/
theorem format_amount_spec (unit : String) :
    format_amount none unit = some "—" ∧
    format_amount (some PFloat.nan) unit = some "—" ∧
    ∀ q : ℚ, ∃ s : String, format_amount (some (PFloat.num q)) unit = some s :=
  ⟨rfl, rfl, fun q => ⟨pyStrip (format_int (q / UNIT_MAP unit) ++ " " ++ unit), rfl⟩⟩

/-- C9: `_y_to_px` is total — for every input the guarded denominator is
non-zero, so the division error branch is unreachable. -/
theorem y_to_px_total (y y0 y1 h : ℚ) : ∃ v, _y_to_px y y0 y1 h = some v := by
  unfold _y_to_px safeDiv
  by_cases hy : y1 = y0
  · simp [hy]
  · have hne : y1 - y0 ≠ 0 := sub_ne_zero_of_ne hy
    simp [hy, hne]

theorem st_slider_mem (lo hi req : ℚ) (h : lo ≤ hi) :
    lo ≤ st_slider lo hi req ∧ st_slider lo hi req ≤ hi :=
  ⟨le_max_left _ _, max_le h (min_le_left _ _)⟩

/-- C4: the anomaly page pairs z-score mode with `robust=False` and a
threshold in [2, 5], MAD mode with `robust=True` and a threshold in
[5/2, 6], and no other combination reaches the detector. -/
theorem anomaly_controls_spec (m : ScoreMethod) (rz rm : ℚ) :
    (m = ScoreMethod.zscore →
      (anomaly_controls m rz rm).1 = false ∧
      2 ≤ (anomaly_controls m rz rm).2 ∧ (anomaly_controls m rz rm).2 ≤ 5) ∧
    (m = ScoreMethod.madscore →
      (anomaly_controls m rz rm).1 = true ∧
      5/2 ≤ (anomaly_controls m rz rm).2 ∧ (anomaly_controls m rz rm).2 ≤ 6) ∧
    (((anomaly_controls m rz rm).1 = false ∧
        2 ≤ (anomaly_controls m rz rm).2 ∧ (anomaly_controls m rz rm).2 ≤ 5) ∨
      ((anomaly_controls m rz rm).1 = true ∧
        5/2 ≤ (anomaly_controls m rz rm).2 ∧ (anomaly_controls m rz rm).2 ≤ 6)) := by
  cases m with
  | zscore =>
    have hb := st_slider_mem 2 5 rz (by norm_num)
    refine ⟨fun _ => ⟨rfl, hb.1, hb.2⟩, ?_, Or.inl ⟨rfl, hb.1, hb.2⟩⟩
    intro hc
    exact absurd hc (by decide)
  | madscore =>
    have hb := st_slider_mem (5/2) 6 rm (by norm_num)
    refine ⟨?_, fun _ => ⟨rfl, hb.1, hb.2⟩, Or.inr ⟨rfl, hb.1, hb.2⟩⟩
    intro hc
    exact absurd hc (by decide)

theorem anomaly_controls_spec_witness :
    (anomaly_controls ScoreMethod.zscore 3 (7/2)).1 = false ∧
    2 ≤ (anomaly_controls ScoreMethod.zscore 3 (7/2)).2 ∧
    (anomaly_controls ScoreMethod.zscore 3 (7/2)).2 ≤ 5 ∧
    (anomaly_controls ScoreMethod.madscore 3 (7/2)).1 = true ∧
    5/2 ≤ (anomaly_controls ScoreMethod.madscore 3 (7/2)).2 ∧
    (anomaly_controls ScoreMethod.madscore 3 (7/2)).2 ≤ 6 := by
  have h1 := (anomaly_controls_spec ScoreMethod.zscore 3 (7/2)).1 rfl
  have h2 := (anomaly_controls_spec ScoreMethod.madscore 3 (7/2)).2.1 rfl
  exact ⟨h1.1, h1.2.1, h1.2.2, h2.1, h2.2.1, h2.2.2⟩

/-- C1 counterexample: the dashboard period selectbox offers 36 months and
writes it into `settings["window"]`, so `process_long_dataframe` hands 36 to
`compute_year_rolling`, violating the claimed upper bound of 24. -/
theorem window_claim_counterexample :
    ui_sets_window 36 ∧
    process_window_arg { window := 36, last_n := 12, missing_policy := Policy.zero_fill } = 36 ∧
    ¬ ((36 : ℤ) ≤ 24) := by
  refine ⟨Or.inr (by decide), by decide, by decide⟩

/-- C1 amended: every `window` value a UI path stores (settings page
number input clamped to [3, 24], or the dashboard selector with options 12,
24 and 36) reaches both `compute_year_rolling` call sites as an integer
between 3 and 36 inclusive. -/
theorem window_bounds_amended (w : ℤ) (s : Settings) (hw : ui_sets_window w) :
    3 ≤ process_window_arg { s with window := w } ∧
    process_window_arg { s with window := w } ≤ 36 ∧
    3 ≤ recompute_window_arg { s with window := w } ∧
    recompute_window_arg { s with window := w } ≤ 36 := by
  have h3 : 3 ≤ w ∧ w ≤ 36 := by
    rcases hw with ⟨req, hreq⟩ | hmem
    · subst hreq
      unfold settings_page_window st_number_input
      exact ⟨le_max_left _ _,
        max_le (by norm_num) ((min_le_left _ _).trans (by norm_num))⟩
    · have hc : w = 12 ∨ w = 24 ∨ w = 36 := by
        simpa [period_options] using hmem
      omega
  have hw0 : ¬ (w = 0) := by omega
  have hp : process_window_arg { s with window := w } = w := by
    simp [process_window_arg, hw0]
  have hr : recompute_window_arg { s with window := w } = w := rfl
  rw [hp, hr]
  exact ⟨h3.1, h3.2, h3.1, h3.2⟩

theorem window_bounds_amended_witness :
    3 ≤ process_window_arg { window := 36, last_n := 12, missing_policy := Policy.zero_fill } ∧
    process_window_arg { window := 36, last_n := 12, missing_policy := Policy.zero_fill } ≤ 36 ∧
    3 ≤ recompute_window_arg { window := 36, last_n := 12, missing_policy := Policy.zero_fill } ∧
    recompute_window_arg { window := 36, last_n := 12, missing_policy := Policy.zero_fill } ≤ 36 := by
  have h := window_bounds_amended 36
    { window := 0, last_n := 12, missing_policy := Policy.zero_fill } (Or.inr (by decide))
  exact h

/-- One row of the year-rolling table as `_monthly_year_totals` reads it:
the product code, the month, and the nullable `year_sum` cell. -/
structure YRow where
  product_code : String
  month : ℤ
  year_sum : Option ℚ
deriving DecidableEq

/-- Insert a month into an ascending list, keeping it ascending. -/
def insertAsc (m : ℤ) : List ℤ → List ℤ
  | [] => [m]
  | a :: rest => if m ≤ a then m :: a :: rest else a :: insertAsc m rest

/-- Ascending sort of the group keys, as `sort_values`/sorted groupby does. -/
def sortAsc (l : List ℤ) : List ℤ := l.foldr insertAsc []

/-- Pandas `Series.diff()` attached to a keyed column: each row keeps its
key and value and gains `value − previous value`, `none` on the first row. -/
def attachDelta (prev : Option ℚ) : List (ℤ × ℚ) → List (ℤ × ℚ × Option ℚ)
  | [] => []
  | (m, v) :: rest => (m, v, prev.map (fun p => v - p)) :: attachDelta (some v) rest

/-- Pandas `groupby(key)[col].sum()` with sorted keys: one entry per distinct
key in ascending order, the value being the sum of the non-null cells of the
group (NaN is skipped, and an all-null group sums to 0). -/
def groupSumByMonth (months : List ℤ) (cell : ℤ → List (Option ℚ)) : List (ℤ × ℚ) :=
  (sortAsc months.dedup).map (fun m => (m, ((cell m).filterMap id).sum))

/-- The totals row produced by `_monthly_year_totals`. -/
structure TotalRow where
  month : ℤ
  year_sum : ℚ
  delta : Option ℚ
deriving DecidableEq

/-- `_monthly_year_totals` (app.py lines 2929-2937): group the year-rolling
table by month, sum `year_sum` within each group (pandas sum skips nulls),
sort by month, and add a `delta` column via `diff()`. -/
def _monthly_year_totals (df : List YRow) : List TotalRow :=
  let totals := groupSumByMonth (df.map (·.month))
    (fun m => (df.filter (fun r => decide (r.month = m))).map (·.year_sum))
  (attachDelta none totals).map (fun t => ⟨t.1, t.2.1, t.2.2⟩)

/-- The claim-side total: the sum of the non-null `year_sum` cells of the
rows carrying month `m` (null cells excluded, not zeroed). -/
def totalNonNullAt (df : List YRow) (m : ℤ) : ℚ :=
  (df.filterMap (fun r => if r.month = m then r.year_sum else none)).sum

theorem insertAsc_mem (x m : ℤ) (l : List ℤ) :
    x ∈ insertAsc m l ↔ x = m ∨ x ∈ l := by
  induction l with
  | nil => simp [insertAsc]
  | cons a rest ih =>
    by_cases h : m ≤ a
    · simp [insertAsc, h]
    · simp [insertAsc, h, ih]
      tauto

theorem sortAsc_mem (x : ℤ) (l : List ℤ) : x ∈ sortAsc l ↔ x ∈ l := by
  induction l with
  | nil => simp [sortAsc]
  | cons a rest ih =>
    show x ∈ insertAsc a (sortAsc rest) ↔ _
    rw [insertAsc_mem]
    simp [ih]

theorem attachDelta_mem (row : ℤ × ℚ × Option ℚ) :
    ∀ (l : List (ℤ × ℚ)) (prev : Option ℚ), row ∈ attachDelta prev l →
      (row.1, row.2.1) ∈ l := by
  intro l
  induction l with
  | nil => intro prev h; simp [attachDelta] at h
  | cons p rest ih =>
    intro prev h
    rw [show p = (p.1, p.2) from rfl, attachDelta, List.mem_cons] at h
    rcases h with h | h
    · subst h; simp
    · exact List.mem_cons_of_mem _ (ih (some p.2) h)

theorem attachDelta_map_fst (l : List (ℤ × ℚ)) :
    ∀ prev, (attachDelta prev l).map (fun t => (t.1, t.2.1)) = l := by
  induction l with
  | nil => intro prev; rfl
  | cons p rest ih =>
    intro prev
    rw [show p = (p.1, p.2) from rfl, attachDelta]
    simp [ih]

theorem filter_map_eq_filterMap (df : List YRow) (m : ℤ) :
    (((df.filter (fun r => decide (r.month = m))).map (·.year_sum)).filterMap id) =
      df.filterMap (fun r => if r.month = m then r.year_sum else none) := by
  induction df with
  | nil => rfl
  | cons r rest ih =>
    by_cases h : r.month = m
    · cases hy : r.year_sum <;>
        simp [List.filter_cons, List.filterMap_cons, h, hy, ih]
    · simp [List.filter_cons, List.filterMap_cons, h, ih]

theorem attachDelta_head (l : List (ℤ × ℚ)) (v : ℚ) (c : ℤ × ℚ × Option ℚ) :
    (attachDelta (some v) l)[0]? = some c → c.2.2 = some (c.2.1 - v) := by
  cases l with
  | nil => intro h; simp [attachDelta] at h
  | cons p rest =>
    intro h
    rw [show p = (p.1, p.2) from rfl, attachDelta, List.getElem?_cons_zero,
      Option.some_inj] at h
    subst h
    rfl

theorem attachDelta_head_none (l : List (ℤ × ℚ)) (c : ℤ × ℚ × Option ℚ) :
    (attachDelta none l)[0]? = some c → c.2.2 = none := by
  cases l with
  | nil => intro h; simp [attachDelta] at h
  | cons p rest =>
    intro h
    rw [show p = (p.1, p.2) from rfl, attachDelta, List.getElem?_cons_zero,
      Option.some_inj] at h
    subst h
    rfl

theorem attachDelta_get_succ (l : List (ℤ × ℚ)) :
    ∀ (prev : Option ℚ) (i : ℕ) (p c : ℤ × ℚ × Option ℚ),
      (attachDelta prev l)[i]? = some p → (attachDelta prev l)[i+1]? = some c →
      c.2.2 = some (c.2.1 - p.2.1) := by
  induction l with
  | nil => intro prev i p c hp _; simp [attachDelta] at hp
  | cons q rest ih =>
    intro prev i p c hp hc
    rw [show q = (q.1, q.2) from rfl, attachDelta] at hp hc
    cases i with
    | zero =>
      rw [List.getElem?_cons_zero, Option.some_inj] at hp
      rw [List.getElem?_cons_succ] at hc
      have := attachDelta_head rest q.2 c hc
      rw [this, ← hp]
    | succ j =>
      rw [List.getElem?_cons_succ] at hp hc
      exact ih (some q.2) j p c hp hc

/-- C2: in `_monthly_year_totals`, every row's total equals the sum of the
non-null `year_sum` cells of the products present at that month, the months
of the output are exactly the months of the input, the first row's `delta` is
null, and every later row's `delta` is its total minus the previous total. -/
theorem monthly_year_totals_spec (df : List YRow) :
    (∀ row ∈ _monthly_year_totals df, row.year_sum = totalNonNullAt df row.month) ∧
    (∀ m : ℤ, m ∈ df.map (·.month) ↔ m ∈ (_monthly_year_totals df).map (·.month)) ∧
    (∀ row0, (_monthly_year_totals df)[0]? = some row0 → row0.delta = none) ∧
    (∀ i prev cur, (_monthly_year_totals df)[i]? = some prev →
      (_monthly_year_totals df)[i+1]? = some cur →
      cur.delta = some (cur.year_sum - prev.year_sum)) := by
  refine ⟨?_, ?_, ?_, ?_⟩
  · intro row hrow
    rcases List.mem_map.mp hrow with ⟨t, ht, hft⟩
    have hmem := attachDelta_mem t _ _ ht
    rw [groupSumByMonth] at hmem
    rcases List.mem_map.mp hmem with ⟨m, _, hm⟩
    have h1 : t.1 = m := (Prod.mk.injEq _ _ _ _ ▸ hm.symm).1
    have h2 : t.2.1 =
        (((df.filter (fun r => decide (r.month = m))).map (·.year_sum)).filterMap id).sum :=
      (Prod.mk.injEq _ _ _ _ ▸ hm.symm).2
    rw [← hft]
    show t.2.1 = totalNonNullAt df t.1
    rw [h1, h2, filter_map_eq_filterMap, totalNonNullAt]
  · intro m
    have hmap : (_monthly_year_totals df).map (·.month) =
        sortAsc (df.map (·.month)).dedup := by
      rw [_monthly_year_totals]
      rw [List.map_map]
      have h1 : ((·.month) ∘ fun t : ℤ × ℚ × Option ℚ =>
          (⟨t.1, t.2.1, t.2.2⟩ : TotalRow)) = (fun t => t.1) := rfl
      rw [h1]
      have h2 : (fun t : ℤ × ℚ × Option ℚ => t.1) =
          (Prod.fst ∘ fun t : ℤ × ℚ × Option ℚ => (t.1, t.2.1)) := rfl
      rw [h2, ← List.map_map, attachDelta_map_fst, groupSumByMonth, List.map_map]
      simp [Function.comp_def]
    rw [hmap, sortAsc_mem, List.mem_dedup]
  · intro row0 h0
    rw [_monthly_year_totals, List.getElem?_map] at h0
    rcases Option.map_eq_some'.mp h0 with ⟨t, ht, hft⟩
    have := attachDelta_head_none _ t ht
    rw [← hft]
    show t.2.2 = none
    exact this
  · intro i prev cur hp hc
    rw [_monthly_year_totals, List.getElem?_map] at hp hc
    rcases Option.map_eq_some'.mp hp with ⟨tp, htp, hfp⟩
    rcases Option.map_eq_some'.mp hc with ⟨tc, htc, hfc⟩
    have := attachDelta_get_succ _ none i tp tc htp htc
    rw [← hfp, ← hfc]
    show tc.2.2 = some (tc.2.1 - tp.2.1)
    exact this

/-- One row of the filtered monthly frame as `_prepare_monthly_trend` reads
it: the (parsed, chronologically ordered) month and the nullable
`sales_amount_jpy` cell. -/
structure MRow where
  month : ℤ
  sales : Option ℚ
deriving DecidableEq

/-- One row of the frame `_prepare_monthly_trend` returns. -/
structure TrendRow where
  month : ℤ
  sales : ℚ
  delta : Option ℚ
  yoy : PFloat
deriving DecidableEq

/-- One cell of `Series.pct_change(12)`: float `(cur / prev) − 1`.  A zero
denominator follows IEEE float division: `0/0` is NaN, otherwise a signed
infinity; there is no null guard. -/
def pctCell (cur prev : ℚ) : PFloat :=
  if prev = 0 then
    (if cur = 0 then PFloat.nan else PFloat.inf (decide (0 < cur)))
  else PFloat.num (cur / prev - 1)

/-- Pandas `Series.pct_change(periods=12)` on a series of finite floats:
positions with fewer than 12 predecessors are NaN (the shifted cell is
missing), the rest compare with the value twelve rows earlier. -/
def pctChange12 (vals : List ℚ) : List PFloat :=
  (List.range vals.length).map (fun i =>
    if i < 12 then PFloat.nan
    else match vals[i]?, vals[i - 12]? with
      | some cur, some prev => pctCell cur prev
      | _, _ => PFloat.nan)

/-- The `monthly` frame of `_prepare_monthly_trend` before the derived
columns: `sales_amount_jpy` summed per month (nulls skipped), months sorted
ascending. -/
def trendTotals (df : List MRow) : List (ℤ × ℚ) :=
  groupSumByMonth (df.map (·.month))
    (fun m => (df.filter (fun r => decide (r.month = m))).map (·.sales))

/-- The `sales_amount_jpy` column of the grouped monthly frame. -/
def trendVals (df : List MRow) : List ℚ := (trendTotals df).map (·.2)

/-- `_prepare_monthly_trend` (app.py lines 2876-2895): group the filtered
monthly frame by month, sum `sales_amount_jpy` (nulls skipped), sort by
month, then add `delta` via `diff()` and `yoy` via `pct_change(12)`. -/
def _prepare_monthly_trend (df : List MRow) : List TrendRow :=
  ((attachDelta none (trendTotals df)).zip (pctChange12 (trendVals df))).map
    (fun p => ⟨p.1.1, p.1.2.1, p.1.2.2, p.2⟩)

theorem attachDelta_getElem?_proj (l : List (ℤ × ℚ)) (prev : Option ℚ) (i : ℕ) :
    ((attachDelta prev l)[i]?).map (fun t => (t.1, t.2.1)) = l[i]? := by
  rw [← List.getElem?_map, attachDelta_map_fst]

theorem pctChange12_getElem? (vals : List ℚ) (i : ℕ) (y : PFloat)
    (h : (pctChange12 vals)[i]? = some y) :
    i < vals.length ∧
    y = (if i < 12 then PFloat.nan
      else match vals[i]?, vals[i - 12]? with
        | some cur, some prev => pctCell cur prev
        | _, _ => PFloat.nan) := by
  rw [pctChange12, List.getElem?_map] at h
  rcases Option.map_eq_some'.mp h with ⟨j, hj, hyj⟩
  have hi : i < vals.length := by
    by_contra hge
    rw [List.getElem?_eq_none (by simpa using hge)] at hj
    exact Option.noConfusion hj
  rw [List.getElem?_range hi, Option.some_inj] at hj
  subst hj
  exact ⟨hi, hyj.symm⟩

theorem prepare_monthly_trend_get (df : List MRow) (i : ℕ) (row : TrendRow)
    (h : (_prepare_monthly_trend df)[i]? = some row) :
    (trendVals df)[i]? = some row.sales ∧
    row.yoy = (if i < 12 then PFloat.nan
      else match (trendVals df)[i]?, (trendVals df)[i - 12]? with
        | some cur, some prev => pctCell cur prev
        | _, _ => PFloat.nan) := by
  rw [_prepare_monthly_trend, List.getElem?_map] at h
  rcases Option.map_eq_some'.mp h with ⟨p, hp, hrow⟩
  rcases (List.getElem?_zip_eq_some).mp hp with ⟨hbase, hyoy⟩
  have htot : (trendTotals df)[i]? = some (p.1.1, p.1.2.1) := by
    rw [← attachDelta_getElem?_proj (trendTotals df) none i, hbase]
    rfl
  have hval : (trendVals df)[i]? = some p.1.2.1 := by
    rw [trendVals, List.getElem?_map, htot]
    rfl
  have hy := pctChange12_getElem? (trendVals df) i p.2 hyoy
  constructor
  · rw [hval, ← hrow]
  · rw [← hrow]
    exact hy.2

/-- C3 amended: in the `yoy` column of `_prepare_monthly_trend`, a row with
fewer than twelve predecessors is null (NaN); otherwise, against the total
twelve rows earlier, a non-zero denominator gives `cur / prev − 1`, a zero
denominator with non-zero numerator gives a signed infinity (pandas
`pct_change` does not guard the division), and `0 / 0` gives NaN. -/
theorem prepare_monthly_trend_yoy (df : List MRow) :
    (∀ i row, (_prepare_monthly_trend df)[i]? = some row → i < 12 →
      row.yoy = PFloat.nan) ∧
    (∀ i prev cur, (_prepare_monthly_trend df)[i]? = some prev →
      (_prepare_monthly_trend df)[i + 12]? = some cur →
      (prev.sales ≠ 0 → cur.yoy = PFloat.num (cur.sales / prev.sales - 1)) ∧
      (prev.sales = 0 → cur.sales ≠ 0 →
        cur.yoy = PFloat.inf (decide (0 < cur.sales))) ∧
      (prev.sales = 0 → cur.sales = 0 → cur.yoy = PFloat.nan)) := by
  constructor
  · intro i row h hi
    have := (prepare_monthly_trend_get df i row h).2
    rw [if_pos hi] at this
    exact this
  · intro i prev cur hp hc
    have hpv := (prepare_monthly_trend_get df i prev hp).1
    have hcv := (prepare_monthly_trend_get df (i + 12) cur hc).1
    have hcy := (prepare_monthly_trend_get df (i + 12) cur hc).2
    have h12 : ¬ (i + 12 < 12) := by omega
    have hsub : i + 12 - 12 = i := by omega
    rw [if_neg h12, hsub, hcv, hpv] at hcy
    refine ⟨?_, ?_, ?_⟩
    · intro hne
      rw [hcy]
      show pctCell cur.sales prev.sales = _
      rw [pctCell, if_neg hne]
    · intro hz hnz
      rw [hcy]
      show pctCell cur.sales prev.sales = _
      rw [pctCell, if_pos hz, if_neg hnz]
    · intro hz hcz
      rw [hcy]
      show pctCell cur.sales prev.sales = _
      rw [pctCell, if_pos hz, if_pos hcz]


/-- A small year-rolling table: two products in month 1 (one with a null
`year_sum`), one product in month 2. -/
def yexample : List YRow :=
  [⟨"A", 1, some 10⟩, ⟨"B", 1, none⟩, ⟨"A", 2, some 7⟩]

theorem monthly_year_totals_spec_witness :
    (⟨1, (10:ℚ), none⟩ : TotalRow).year_sum = totalNonNullAt yexample 1 ∧
    (1:ℤ) ∈ (_monthly_year_totals yexample).map (·.month) ∧
    (⟨1, (10:ℚ), none⟩ : TotalRow).delta = none ∧
    (⟨2, (7:ℚ), some (-3)⟩ : TotalRow).delta =
      some ((⟨2, (7:ℚ), some (-3)⟩ : TotalRow).year_sum -
        (⟨1, (10:ℚ), none⟩ : TotalRow).year_sum) := by
  have hev : _monthly_year_totals yexample = [⟨1, 10, none⟩, ⟨2, 7, some (-3)⟩] := by
    norm_num [_monthly_year_totals, groupSumByMonth, yexample, sortAsc, insertAsc,
      attachDelta, List.dedup_cons_of_mem, List.dedup_cons_of_not_mem,
      List.filterMap_cons, List.sum_cons]
  have h := monthly_year_totals_spec yexample
  refine ⟨h.1 ⟨1, 10, none⟩ ?_, (h.2.1 1).mp (by simp [yexample]),
    h.2.2.1 ⟨1, 10, none⟩ (by rw [hev]; decide), h.2.2.2 0 ⟨1, 10, none⟩ ⟨2, 7, some (-3)⟩
      (by rw [hev]; decide) (by rw [hev]; decide)⟩
  rw [hev]
  exact List.mem_cons_self _ _

/-- Thirteen consecutive months of monthly sales totals whose first month
sums to zero: the denominator of `pct_change(12)` at the last row is zero. -/
def trendExample : List MRow :=
  [⟨0, some 0⟩, ⟨1, some 1⟩, ⟨2, some 1⟩, ⟨3, some 1⟩, ⟨4, some 1⟩,
   ⟨5, some 1⟩, ⟨6, some 1⟩, ⟨7, some 1⟩, ⟨8, some 1⟩, ⟨9, some 1⟩,
   ⟨10, some 1⟩, ⟨11, some 1⟩, ⟨12, some 1⟩]

theorem trendExample_totals_eval :
    trendTotals trendExample =
      [(0, 0), (1, 1), (2, 1), (3, 1), (4, 1), (5, 1), (6, 1), (7, 1), (8, 1),
       (9, 1), (10, 1), (11, 1), (12, 1)] := by
  norm_num [trendTotals, groupSumByMonth, trendExample, sortAsc, insertAsc,
    List.dedup_cons_of_mem, List.dedup_cons_of_not_mem,
    List.filterMap_cons, List.sum_cons]

theorem trendExample_eval :
    _prepare_monthly_trend trendExample =
      [⟨0, 0, none, PFloat.nan⟩, ⟨1, 1, some 1, PFloat.nan⟩,
       ⟨2, 1, some 0, PFloat.nan⟩, ⟨3, 1, some 0, PFloat.nan⟩,
       ⟨4, 1, some 0, PFloat.nan⟩, ⟨5, 1, some 0, PFloat.nan⟩,
       ⟨6, 1, some 0, PFloat.nan⟩, ⟨7, 1, some 0, PFloat.nan⟩,
       ⟨8, 1, some 0, PFloat.nan⟩, ⟨9, 1, some 0, PFloat.nan⟩,
       ⟨10, 1, some 0, PFloat.nan⟩, ⟨11, 1, some 0, PFloat.nan⟩,
       ⟨12, 1, some 0, PFloat.inf true⟩] := by
  have h4 : attachDelta none (trendTotals trendExample) =
      [(0, 0, none), (1, 1, some 1), (2, 1, some 0), (3, 1, some 0),
       (4, 1, some 0), (5, 1, some 0), (6, 1, some 0), (7, 1, some 0),
       (8, 1, some 0), (9, 1, some 0), (10, 1, some 0), (11, 1, some 0),
       (12, 1, some 0)] := by
    rw [trendExample_totals_eval]
    norm_num [attachDelta]
  have h3 : pctChange12 (trendVals trendExample) =
      [PFloat.nan, PFloat.nan, PFloat.nan, PFloat.nan, PFloat.nan, PFloat.nan,
       PFloat.nan, PFloat.nan, PFloat.nan, PFloat.nan, PFloat.nan, PFloat.nan,
       PFloat.inf true] := by
    rw [trendVals, trendExample_totals_eval]
    decide
  rw [_prepare_monthly_trend, h4, h3]
  rfl

/-- C3 counterexample: at the 13th row of this series the total twelve rows
earlier is zero and the `yoy` cell is positive infinity, not null. -/
theorem prepare_trend_zero_denominator_counterexample :
    ((_prepare_monthly_trend trendExample).map (fun r => r.yoy))[12]? =
      some (PFloat.inf true) ∧
    PFloat.inf true ≠ PFloat.nan := by
  rw [trendExample_eval]
  exact ⟨rfl, by decide⟩

theorem prepare_monthly_trend_yoy_witness :
    (⟨0, (0:ℚ), none, PFloat.nan⟩ : TrendRow).yoy = PFloat.nan ∧
    (⟨12, (1:ℚ), some 0, PFloat.inf true⟩ : TrendRow).yoy =
      PFloat.inf (decide
        ((0:ℚ) < (⟨12, (1:ℚ), some 0, PFloat.inf true⟩ : TrendRow).sales)) := by
  have h := prepare_monthly_trend_yoy trendExample
  have h0 : (_prepare_monthly_trend trendExample)[0]? =
      some ⟨0, 0, none, PFloat.nan⟩ := by rw [trendExample_eval]; decide
  have h12 : (_prepare_monthly_trend trendExample)[12]? =
      some ⟨12, 1, some 0, PFloat.inf true⟩ := by rw [trendExample_eval]; decide
  exact ⟨h.1 0 _ h0 (by norm_num),
    (h.2 0 _ _ h0 h12).2.1 rfl (by norm_num)⟩

/-- Python `x or d` for an optional numeric attribute: `None` and 0 both fall
back to the default. -/
def pyOr (v : Option ℚ) (d : ℚ) : ℚ :=
  match v with
  | some x => if x = 0 then d else x
  | none => d

/-- Python `int()` on a float: truncation toward zero. -/
def pyInt (q : ℚ) : ℤ := if q < 0 then Int.ceil q else Int.floor q

/-- One Plotly annotation as `fig.add_annotation` records it
(core/plot_utils.py lines 152-164). -/
structure Ann where
  x : ℤ
  y : ℚ
  text : String
  xshift : ℤ
  yshift : ℚ
deriving DecidableEq

/-- The slice of a Plotly figure `add_latest_labels_no_overlap` touches:
layout height and margins, the y-axis range, and the annotation list. -/
structure Fig where
  height : Option ℚ
  margin_t : Option ℚ
  margin_b : Option ℚ
  yaxis_range : Option (ℚ × ℚ)
  annotations : List Ann
deriving DecidableEq

/-- `_plot_area_height` (core/plot_utils.py lines 105-110): height minus top
and bottom margins, floored at 120; `or` defaults catch both missing and
zero attributes. -/
def _plot_area_height (fig : Fig) : ℤ :=
  max 120 (pyInt (pyOr fig.height 520 - pyOr fig.margin_t 40 - pyOr fig.margin_b 60))

/-- One row of the long-form chart frame: display label, month, and the
plotted `year_sum` value. -/
structure LRow where
  label : String
  month : ℤ
  y : ℚ
deriving DecidableEq

/-- Insertion step of the month sort. -/
def insertRowByMonth (r : LRow) : List LRow → List LRow
  | [] => [r]
  | a :: rest =>
    if r.month ≤ a.month then r :: a :: rest else a :: insertRowByMonth r rest

/-- `df_long.sort_values(x_col)`. -/
def sortByMonth (df : List LRow) : List LRow := df.foldr insertRowByMonth []

/-- `sort_values(x_col).groupby(label_col).tail(1)`: the chronologically
last row of each labelled series. -/
def lastPerLabel (df : List LRow) : List LRow :=
  ((df.map (·.label)).dedup).filterMap
    (fun l => ((sortByMonth df).filter (fun r => decide (r.label = l))).getLast?)

/-- Insertion step of the descending `year_sum` sort. -/
def insertRowByYDesc (r : LRow) : List LRow → List LRow
  | [] => [r]
  | a :: rest => if a.y ≤ r.y then r :: a :: rest else a :: insertRowByYDesc r rest

/-- `sort_values(y_col, ascending=False)`. -/
def sortByYDesc (l : List LRow) : List LRow := l.foldr insertRowByYDesc []

/-- Insertion step of the ascending pixel sort. -/
def insertByFst (p : ℚ × LRow) : List (ℚ × LRow) → List (ℚ × LRow)
  | [] => [p]
  | a :: rest => if p.1 ≤ a.1 then p :: a :: rest else a :: insertByFst p rest

/-- `cand.sort_values("y_px")`. -/
def sortByFst (l : List (ℚ × LRow)) : List (ℚ × LRow) := l.foldr insertByFst []

/-- `np.clip(v, lo, hi)`. -/
def np_clip (v lo hi : ℚ) : ℚ := min hi (max lo v)

/-- The body of the placement loop (core/plot_utils.py lines 144-164): push
the label below the previously placed one when they would overlap, clip into
the plot area, record the placement, and append one annotation. -/
def labelStep (plotH minGap : ℚ) (alternate : Bool) (xpad : ℤ)
    (st : List ℚ × List Ann) (p : ℚ × LRow) : List ℚ × List Ann :=
  let base0 := match st.1.getLast? with
    | some prev => if p.1 ≤ prev + minGap then prev + minGap else p.1
    | none => p.1
  let base := np_clip base0 (0 + 6) (plotH - 6)
  let placed := st.1 ++ [base]
  let yshift := -(base - p.1)
  let xshift : ℤ := if (!alternate) || placed.length % 2 = 1 then xpad else -xpad
  (placed, st.2 ++ [⟨p.2.month, p.2.y,
    p.2.label ++ "：" ++ format_int p.2.y ++ "（" ++ toString p.2.month ++ "）",
    xshift, yshift⟩])

/-- `float(df_long[y_col].min())` (the frame is non-empty when this runs). -/
def minY : List LRow → ℚ
  | [] => 0
  | r :: rest => rest.foldl (fun acc x => min acc x.y) r.y

/-- `float(df_long[y_col].max())`. -/
def maxY : List LRow → ℚ
  | [] => 0
  | r :: rest => rest.foldl (fun acc x => max acc x.y) r.y

/-- `add_latest_labels_no_overlap` (core/plot_utils.py lines 119-164):
return the figure unchanged when no labelled series exists; otherwise keep
the `max_labels` series with the largest latest values, compute pixel
positions, and add one non-overlapping annotation per kept series. -/
def add_latest_labels_no_overlap (fig : Fig) (df : List LRow) (max_labels : ℕ)
    (min_gap_px : ℚ) (alternate_side : Bool) (xpad_px : ℤ) : Fig :=
  let last := lastPerLabel df
  if last.length = 0 then fig
  else
    let cand := (sortByYDesc last).take max_labels
    let yr := match fig.yaxis_range with
      | some r => r
      | none => (minY df, maxY df)
    let plotH : ℚ := (_plot_area_height fig : ℚ)
    let cand2 := sortByFst
      (cand.map (fun r => ((_y_to_px r.y yr.1 yr.2 plotH).getD 0, r)))
    let res := cand2.foldl (labelStep plotH min_gap_px alternate_side xpad_px) ([], [])
    { fig with annotations := fig.annotations ++ res.2 }

theorem labelStep_fold_length (plotH minGap : ℚ) (alternate : Bool) (xpad : ℤ) :
    ∀ (l : List (ℚ × LRow)) (placed : List ℚ) (anns : List Ann),
      ((l.foldl (labelStep plotH minGap alternate xpad) (placed, anns)).2).length =
        anns.length + l.length := by
  intro l
  induction l with
  | nil => intro placed anns; simp
  | cons p rest ih =>
    intro placed anns
    rw [List.foldl_cons]
    rw [show labelStep plotH minGap alternate xpad (placed, anns) p =
      ((labelStep plotH minGap alternate xpad (placed, anns) p).1,
       anns ++ [_]) from rfl]
    rw [ih]
    simp
    omega

theorem insertByFst_length (p : ℚ × LRow) (l : List (ℚ × LRow)) :
    (insertByFst p l).length = l.length + 1 := by
  induction l with
  | nil => rfl
  | cons a rest ih =>
    by_cases h : p.1 ≤ a.1
    · simp [insertByFst, h]
    · simp [insertByFst, h, ih]

theorem sortByFst_length (l : List (ℚ × LRow)) :
    (sortByFst l).length = l.length := by
  induction l with
  | nil => rfl
  | cons a rest ih =>
    show (insertByFst a (sortByFst rest)).length = rest.length + 1
    rw [insertByFst_length, ih]

/-- C10: `add_latest_labels_no_overlap` adds no annotation when the frame is
empty and never adds more than `max_labels` annotations. -/
theorem add_latest_labels_no_overlap_spec (fig : Fig) (df : List LRow)
    (max_labels : ℕ) (min_gap : ℚ) (alt : Bool) (xpad : ℤ) :
    (df = [] →
      add_latest_labels_no_overlap fig df max_labels min_gap alt xpad = fig) ∧
    (add_latest_labels_no_overlap fig df max_labels min_gap alt xpad).annotations.length ≤
      fig.annotations.length + max_labels := by
  constructor
  · intro hdf
    subst hdf
    rfl
  · rw [add_latest_labels_no_overlap]
    by_cases hlast : (lastPerLabel df).length = 0
    · simp only [hlast, if_pos]
      omega
    · simp only [hlast, if_neg, if_false]
      have hlen := labelStep_fold_length (((_plot_area_height fig : ℤ) : ℚ))
        min_gap alt xpad
        (sortByFst
          (((sortByYDesc (lastPerLabel df)).take max_labels).map
            (fun r => ((_y_to_px r.y
              (match fig.yaxis_range with
                | some r => r
                | none => (minY df, maxY df)).1
              (match fig.yaxis_range with
                | some r => r
                | none => (minY df, maxY df)).2
              (((_plot_area_height fig : ℤ) : ℚ))).getD 0, r))))
        [] []
      simp only [List.length_append]
      rw [hlen]
      simp only [List.length_nil, Nat.zero_add, sortByFst_length, List.length_map]
      have := List.length_take_le max_labels (sortByYDesc (lastPerLabel df))
      omega

/-- One row of a snapshot (the year-rolling table restricted to one month):
the product code and its nullable `year_sum`. -/
structure SRow where
  product_code : String
  year_sum : Option ℚ
deriving DecidableEq

/-- Modelled from the spec: `filter_products_by_band` is defined in the
`services` module, which is not among the sources here — app.py only imports
it (line 601) and calls it (line 7765).  Spec §4.6: the filter keeps exactly
the snapshot rows whose `year_sum` lies in the band, inclusive on both
bounds; a null `year_sum` satisfies no comparison; an empty snapshot yields
an empty code list, never an exception. -/
def filter_products_by_band (snapshot : List SRow) (low high : ℚ) : List String :=
  (snapshot.filter (fun r =>
    match r.year_sum with
    | some v => decide (low ≤ v) && decide (v ≤ high)
    | none => false)).map (·.product_code)

/-- C5: membership in the returned code list is exactly the inclusive band
condition on a non-null `year_sum`, and an empty snapshot returns `[]`. -/
theorem filter_products_by_band_spec (snapshot : List SRow) (low high : ℚ) :
    (∀ c : String, c ∈ filter_products_by_band snapshot low high ↔
      ∃ r ∈ snapshot, r.product_code = c ∧
        ∃ v, r.year_sum = some v ∧ low ≤ v ∧ v ≤ high) ∧
    (snapshot = [] → filter_products_by_band snapshot low high = []) := by
  constructor
  · intro c
    rw [filter_products_by_band]
    simp only [List.mem_map, List.mem_filter]
    constructor
    · rintro ⟨r, ⟨hr, hpred⟩, hc⟩
      refine ⟨r, hr, hc, ?_⟩
      cases hy : r.year_sum with
      | none => rw [hy] at hpred; simp at hpred
      | some v =>
        rw [hy] at hpred
        simp only [Bool.and_eq_true, decide_eq_true_eq] at hpred
        exact ⟨v, rfl, hpred.1, hpred.2⟩
    · rintro ⟨r, hr, hc, v, hv, h1, h2⟩
      refine ⟨r, ⟨hr, ?_⟩, hc⟩
      rw [hv]
      simp [h1, h2]
  · intro h
    subst h
    rfl

/-- A concrete snapshot: codes inside, on, outside and without a band value. -/
def snapshotExample : List SRow :=
  [⟨"A", some 150⟩, ⟨"B", some 250⟩, ⟨"C", none⟩, ⟨"D", some 100⟩]

theorem filter_products_by_band_spec_witness :
    filter_products_by_band [] 100 200 = [] ∧
    "A" ∈ filter_products_by_band snapshotExample 100 200 ∧
    "D" ∈ filter_products_by_band snapshotExample 100 200 := by
  refine ⟨(filter_products_by_band_spec [] 100 200).2 rfl,
    ((filter_products_by_band_spec snapshotExample 100 200).1 "A").mpr
      ⟨⟨"A", some 150⟩, by decide, rfl, 150, rfl, by norm_num, by norm_num⟩,
    ((filter_products_by_band_spec snapshotExample 100 200).1 "D").mpr
      ⟨⟨"D", some 100⟩, by decide, rfl, 100, rfl, by norm_num, by norm_num⟩⟩

/-- A bare figure with no stored layout attributes and no annotations. -/
def figExample : Fig := ⟨none, none, none, none, []⟩

theorem add_latest_labels_no_overlap_spec_witness :
    add_latest_labels_no_overlap figExample [] 12 12 true 8 = figExample ∧
    (add_latest_labels_no_overlap figExample [] 12 12 true 8).annotations.length ≤
      figExample.annotations.length + 12 := by
  have h := add_latest_labels_no_overlap_spec figExample [] 12 12 true 8
  exact ⟨h.1 rfl, h.2⟩

/-- One row of the normalized long-form table (spec §3 MonthlyRecord). -/
structure LongRow where
  product_code : String
  product_name : String
  month : ℤ
  sales_amount_jpy : Option ℚ
  is_missing : Bool
deriving DecidableEq

/-- One row of the year-rolling table (spec §3 YearRollingRecord, with the
slope column added by the slope stage). -/
structure YearRow where
  product_code : String
  product_name : String
  month : ℤ
  year_sum : Option ℚ
  yoy : Option ℚ
  delta : Option ℚ
  slope_beta : Option ℚ
deriving DecidableEq

/-- The amount cell of a product's rows at one month, null when the month
has no row or the cell is null. -/
def amountAt (prows : List LongRow) (m : ℤ) : Option ℚ :=
  (prows.find? (fun r => decide (r.month = m))).bind (·.sales_amount_jpy)

/-- The full observed calendar range of the table, min month to max month. -/
def monthRange (df : List LongRow) : List ℤ :=
  match df.map (·.month) with
  | [] => []
  | a :: rest =>
    let lo := rest.foldl min a
    let hi := rest.foldl max a
    (List.range ((hi - lo).toNat + 1)).map (fun k => lo + (k : ℤ))

/-- Modelled from the spec: `fill_missing_months` is defined in the
`services` module, absent from the sources here (app.py imports it at line
591 and calls it at line 2687).  Spec §4.1 `fill_missing`: every product
receives a complete month-indexed series spanning the full observed calendar
range; a missing cell becomes 0 with `is_missing=true` under `zero_fill` and
stays null under `mark_missing`.  Pure transformation. -/
def fill_missing_months (df : List LongRow) (policy : Policy) : List LongRow :=
  let range := monthRange df
  ((df.map (·.product_code)).dedup).flatMap (fun c =>
    let prows := df.filter (fun r => decide (r.product_code = c))
    let name := match prows.head? with
      | some r => r.product_name
      | none => ""
    range.map (fun m =>
      match prows.find? (fun r => decide (r.month = m)) with
      | some r => r
      | none => ⟨c, name, m,
          (match policy with
            | Policy.zero_fill => some 0
            | Policy.mark_missing => none), true⟩))

/-- The trailing `w` months ending at `m`. -/
def windowMonths (m w : ℤ) : List ℤ :=
  (List.range w.toNat).map (fun k => m - (k : ℤ))

/-- The first observed month of a product's rows. -/
def firstMonthOf (prows : List LongRow) : Option ℤ :=
  match prows.map (·.month) with
  | [] => none
  | a :: rest => some (rest.foldl min a)

/-- The `year_sum` cell for one product at one month (spec §4.2): under
`zero_fill`, missing months contribute 0 and months before the product's
first observed month are null; under `mark_missing`, any null month in the
window nullifies the sum. -/
def yearSumAt (prows : List LongRow) (w : ℤ) (policy : Policy) (m : ℤ) : Option ℚ :=
  match policy with
  | Policy.zero_fill =>
    match firstMonthOf prows with
    | none => none
    | some f =>
      if m < f then none
      else some (((windowMonths m w).map (fun mm => (amountAt prows mm).getD 0)).sum)
  | Policy.mark_missing =>
    let cells := (windowMonths m w).map (fun mm => amountAt prows mm)
    if cells.all (·.isSome) then some ((cells.filterMap id).sum) else none

/-- Modelled from the spec: `compute_year_rolling` is defined in the
`services` module, absent from the sources here (app.py imports it at line
592 and calls it at lines 2688 and 8863).  Spec §4.2: per product and month,
the trailing-window sum under the active policy, `delta(M) = year_sum(M) −
year_sum(M−1)` when both are defined else null, and `yoy(M) = year_sum(M) /
year_sum(M−12) − 1` when the denominator is defined and non-zero else null. -/
def compute_year_rolling (df : List LongRow) (window : ℤ) (policy : Policy) :
    List YearRow :=
  ((df.map (·.product_code)).dedup).flatMap (fun c =>
    let prows := df.filter (fun r => decide (r.product_code = c))
    let name := match prows.head? with
      | some r => r.product_name
      | none => ""
    (sortAsc ((prows.map (·.month)).dedup)).map (fun m =>
      let ys := yearSumAt prows window policy m
      let delta := match ys, yearSumAt prows window policy (m - 1) with
        | some a, some b => some (a - b)
        | _, _ => none
      let yoy := match ys, yearSumAt prows window policy (m - 12) with
        | some a, some b => if b = 0 then none else some (a / b - 1)
        | _, _ => none
      ⟨c, name, m, ys, yoy, delta, none⟩))

/-- Ordinary least-squares slope of a series against indices 0, 1, …; null
with fewer than two points or a degenerate design. -/
def olsSlope (pts : List ℚ) : Option ℚ :=
  let k := pts.length
  if k < 2 then none
  else
    let xs := (List.range k).map (fun i => (i : ℚ))
    let sx := xs.sum
    let sy := pts.sum
    let sxy := ((xs.zip pts).map (fun p => p.1 * p.2)).sum
    let sxx := (xs.map (fun x => x * x)).sum
    let den := (k : ℚ) * sxx - sx * sx
    if den = 0 then none else some (((k : ℚ) * sxy - sx * sy) / den)

/-- Modelled from the spec: `compute_slopes` is defined in the `services`
module, absent from the sources here (app.py imports it at line 593 and
calls it at lines 2689 and 8866).  Spec §4.3: per product, an OLS line over
the trailing `last_n` non-null `year_sum` points (all history when
`last_n ≤ 0`), null when fewer than two valid points; the slope column is
added to every row of the product.  Pure, adds columns only. -/
def compute_slopes (df : List YearRow) (last_n : ℤ) : List YearRow :=
  df.map (fun r =>
    let prows := df.filter (fun q => decide (q.product_code = r.product_code))
    let ms := sortAsc ((prows.map (·.month)).dedup)
    let vals := ms.filterMap (fun m =>
      (prows.find? (fun q => decide (q.month = m))).bind (·.year_sum))
    let pts := if last_n ≤ 0 then vals
      else vals.drop (vals.length - last_n.toNat)
    { r with slope_beta := olsSlope pts })

/-- The two tables `process_long_dataframe` computes from a long-form table
and the settings (app.py lines 2687-2689): fill missing months, roll the
year window, add slopes. -/
def pipeline_tables (t : List LongRow) (s : Settings) :
    List LongRow × List YearRow :=
  let window := if s.window = 0 then 12 else s.window
  let last_n := if s.last_n = 0 then 12 else s.last_n
  let normalized := fill_missing_months t s.missing_policy
  (normalized,
    compute_slopes (compute_year_rolling normalized window s.missing_policy) last_n)

/-- A Python object held by the session heap: a long-form or year-rolling
dataframe. -/
inductive HObj where
  | hlong (t : List LongRow)
  | hyear (t : List YearRow)
deriving DecidableEq

/-- The parts of `st.session_state` the pipeline touches: the settings and
the references stored in `data_monthly` and `data_year`. -/
structure Session where
  settings : Settings
  data_monthly : Option ℕ
  data_year : Option ℕ
deriving DecidableEq

/-- A program state: the object heap (addresses are list positions, new
objects are appended) and the session. -/
structure PState where
  heap : List HObj
  session : Session
deriving DecidableEq

/-- The state after one `process_long_dataframe` call on the table `t`: two
fresh objects appended to the heap and the two session references updated
(app.py lines 2691-2692). -/
def process_post (st : PState) (t : List LongRow) : PState :=
  ⟨st.heap ++ [HObj.hlong (pipeline_tables t st.session.settings).1,
    HObj.hyear (pipeline_tables t st.session.settings).2],
   { st.session with
      data_monthly := some st.heap.length,
      data_year := some (st.heap.length + 1) }⟩

/-- `process_long_dataframe` (app.py lines 2679-2693) over the explicit
heap: read the long table at `r`, hand a copy of it to the pure pipeline
(the source copies with `long_df.copy()` before `fill_missing_months`, so
no callee ever holds the caller's object), allocate the two result tables as
fresh objects, store their references in `data_monthly` and `data_year`,
and return the tables.  `none` models the error of a dangling or mistyped
reference, which no caller triggers. -/
def process_long_dataframe (r : ℕ) (st : PState) :
    Option ((List LongRow × List YearRow) × PState) :=
  match st.heap[r]? with
  | some (HObj.hlong t) =>
    some (pipeline_tables t st.session.settings, process_post st t)
  | _ => none

/-- C7: the pipeline never touches an existing heap object — in particular
the caller's long-form table at `r` is unchanged — and the only session
fields it writes are `data_monthly` and `data_year` (settings survive). -/
theorem process_long_dataframe_frame (st : PState) (r : ℕ) (t : List LongRow)
    (out : List LongRow × List YearRow) (st' : PState)
    (hr : st.heap[r]? = some (HObj.hlong t))
    (hp : process_long_dataframe r st = some (out, st')) :
    (∀ i, i < st.heap.length → st'.heap[i]? = st.heap[i]?) ∧
    st'.heap[r]? = some (HObj.hlong t) ∧
    st'.session.settings = st.session.settings := by
  have hlt : r < st.heap.length := by
    by_contra hge
    rw [List.getElem?_eq_none (by omega)] at hr
    exact Option.noConfusion hr
  rw [process_long_dataframe, hr] at hp
  rw [Option.some_inj] at hp
  have hst : st' = process_post st t := ((Prod.mk.injEq _ _ _ _).mp hp).2.symm
  subst hst
  refine ⟨?_, ?_, rfl⟩
  · intro i hi
    exact List.getElem?_append_left hi
  · show (st.heap ++ _)[r]? = _
    rw [List.getElem?_append_left hlt]
    exact hr

/-- A two-month single-product long table for exercising the pipeline. -/
def exLong : List LongRow :=
  [⟨"A", "Alpha", 0, some 5, false⟩, ⟨"A", "Alpha", 1, some 3, false⟩]

/-- Settings with a one-month window, one slope point, zero-fill policy. -/
def exSettings : Settings := ⟨1, 1, Policy.zero_fill⟩

def exSession : Session := ⟨exSettings, none, none⟩

def exState : PState := ⟨[HObj.hlong exLong], exSession⟩

theorem process_long_dataframe_frame_witness :
    (process_post exState exLong).heap[0]? = some (HObj.hlong exLong) ∧
    (process_post exState exLong).session.settings = exSettings := by
  have h := process_long_dataframe_frame exState 0 exLong
    (pipeline_tables exLong exSettings) (process_post exState exLong) rfl rfl
  exact ⟨h.2.1, h.2.2⟩

/-- C6: running the pipeline, then running it again on the resulting state
with the same argument, produces the same pair of tables — the output is a
pure function of the input table and the settings, and the first run
changes neither. -/
theorem process_long_dataframe_deterministic (st : PState) (r : ℕ)
    (t : List LongRow) (hr : st.heap[r]? = some (HObj.hlong t)) :
    ∃ out1 st1 out2 st2,
      process_long_dataframe r st = some (out1, st1) ∧
      process_long_dataframe r st1 = some (out2, st2) ∧
      out1 = out2 := by
  have hlt : r < st.heap.length := by
    by_contra hge
    rw [List.getElem?_eq_none (by omega)] at hr
    exact Option.noConfusion hr
  refine ⟨pipeline_tables t st.session.settings, process_post st t,
    pipeline_tables t st.session.settings, process_post (process_post st t) t,
    ?_, ?_, rfl⟩
  · rw [process_long_dataframe, hr]
  · have hr1 : (process_post st t).heap[r]? = some (HObj.hlong t) := by
      show (st.heap ++ _)[r]? = _
      rw [List.getElem?_append_left hlt]
      exact hr
    rw [process_long_dataframe, hr1]
    rfl

theorem process_long_dataframe_deterministic_witness :
    ∃ out1 st1 out2 st2,
      process_long_dataframe 0 exState = some (out1, st1) ∧
      process_long_dataframe 0 st1 = some (out2, st2) ∧
      out1 = out2 :=
  process_long_dataframe_deterministic exState 0 exLong rfl
